import Mathlib

/-!
Shallow embedding of the MTG proxy card-list pipeline
(`src/card_parser.py`, `src/scryfall_service.py`, `src/app.py`) and proofs
about it.  Upstream HTTP interactions are abstracted as explicit inputs:
each embedded operation receives the (already parsed) results of the
requests it would issue.  `none` models a falsy response (`None`, an HTTP
failure, or an empty body).  All string primitives are re-implemented over
`List Char` so that every definition evaluates inside the kernel; they
match Python's behaviour on the ASCII inputs this program manipulates.
-/

/-- Python `\s` character class (ASCII range): space, tab, newline,
carriage return, vertical tab, form feed. -/
def isSpacePy (c : Char) : Bool :=
  c = ' ' || c = '\t' || c = '\n' || c = '\r' || c = '\x0b' || c = '\x0c'

/-- Value of a run of ASCII digits, as Python's `int` computes it. -/
def digitsToNat (cs : List Char) : Nat :=
  cs.foldl (fun n c => n * 10 + (c.toNat - '0'.toNat)) 0

/-- Python `str.strip()` (whitespace only; ASCII range). -/
def pyStrip (s : String) : String :=
  String.mk (((s.data.dropWhile isSpacePy).reverse.dropWhile isSpacePy).reverse)

/-- Python `str.upper()` restricted to ASCII, which is all the source feeds it. -/
def pyUpper (s : String) : String := String.mk (s.data.map Char.toUpper)

/-- Python `str.lower()` restricted to ASCII, which is all the source feeds it. -/
def pyLower (s : String) : String := String.mk (s.data.map Char.toLower)

/-- Python `a or b` where `a` is an optional string (`None` and `""` are falsy). -/
def pyOrStr (a : Option String) (b : String) : String :=
  match a with
  | some s => if s = "" then b else s
  | none => b

/-- Python truthiness of an optional string: `None` and `""` are falsy. -/
def pyTruthyStr (a : Option String) : Bool :=
  match a with
  | some s => decide (s ≠ "")
  | none => false

/-- Python truthiness of an optional string, keeping the value when truthy. -/
def pyStrOpt (a : Option String) : Option String :=
  match a with
  | some s => if s = "" then none else some s
  | none => none

/-- Lexicographic comparison on characters, Python's `<` on strings
(code-point order). -/
def charListLt : List Char → List Char → Bool
  | [], [] => false
  | [], _ :: _ => true
  | _ :: _, [] => false
  | a :: as, b :: bs => decide (a < b) || (decide (a = b) && charListLt as bs)

/-- `str.split('\n')` over the underlying characters. -/
def splitNL (cs : List Char) : List (List Char) :=
  cs.foldr (fun c acc =>
    match acc with
    | [] => if c = '\n' then [[], []] else [[c]]
    | g :: gs => if c = '\n' then [] :: (g :: gs) else (c :: g) :: gs) [[]]

/-- `str.startswith` over the underlying characters. -/
def startsWithChars : List Char → List Char → Bool
  | _, [] => true
  | [], _ :: _ => false
  | c :: cs, p :: ps => decide (c = p) && startsWithChars cs ps

/-- Python `dict.get(k)` on a string-valued mapping modelled as an
association list. -/
def dictGet (l : List (String × String)) (k : String) : Option String :=
  (l.find? (fun p => decide (p.1 = k))).map (fun p => p.2)

/-- Keep the first occurrence of each element, in order — the contents of a
Python `set` built by iterating a list, enumerated deterministically. -/
def dedupFirst : List (String × String) → List (String × String) :=
  List.foldl (fun acc a => if a ∈ acc then acc else acc ++ [a]) []

/-! ## `src/scryfall_service.py` -/

/-- A card record as returned by the upstream catalog (a JSON object); every
field the source consumes, each optional because `dict.get` tolerates its
absence.  `image_uris` is the size-tag → URL mapping. -/
structure Card where
  id : Option String := none
  oracle_id : Option String := none
  name : Option String := none
  printed_name : Option String := none
  set : Option String := none
  set_name : Option String := none
  released_at : Option String := none
  rarity : Option String := none
  lang : Option String := none
  collector_number : Option String := none
  image_uris : Option (List (String × String)) := none
deriving DecidableEq

/-- Embeds `ScryfallService._get_language_name`
(src/scryfall_service.py:278-300): the static code → display-name table,
unknown codes formatted as `Idioma (<code>)`. -/
def _get_language_name (lang_code : String) : String :=
  if lang_code = "en" then "Inglês"
  else if lang_code = "es" then "Espanhol"
  else if lang_code = "fr" then "Francês"
  else if lang_code = "de" then "Alemão"
  else if lang_code = "it" then "Italiano"
  else if lang_code = "pt" then "Português"
  else if lang_code = "ja" then "Japonês"
  else if lang_code = "ko" then "Coreano"
  else if lang_code = "ru" then "Russo"
  else if lang_code = "zhs" then "Chinês Simplificado"
  else if lang_code = "zht" then "Chinês Tradicional"
  else if lang_code = "he" then "Hebraico"
  else if lang_code = "la" then "Latim"
  else if lang_code = "grc" then "Grego Antigo"
  else if lang_code = "ar" then "Árabe"
  else if lang_code = "sa" then "Sânscrito"
  else if lang_code = "ph" then "Phyrexiano"
  else if lang_code = "qya" then "Quenya"
  else "Idioma (" ++ lang_code ++ ")"

/-- Embeds `ScryfallService.get_card_by_name` (src/scryfall_service.py:64-111).
The three upstream requests are abstracted by their results:
`fuzzyResult` for `GET /cards/named?fuzzy=`, `ptResult` for
`GET /cards/<id>?lang=pt`, `enResult` for `GET /cards/<id>`.  When the fuzzy
candidate carries no truthy `id`, the source returns it without issuing the
id-based requests; here that shows up as the result not depending on
`ptResult`/`enResult`. -/
def get_card_by_name (fuzzyResult ptResult enResult : Option Card) : Option Card :=
  match fuzzyResult with
  | none => none
  | some card_data =>
    if pyTruthyStr card_data.id then
      match ptResult with
      | some pt_card =>
        if pt_card.lang = some "pt" then some pt_card
        else
          match enResult with
          | some en_card => some en_card
          | none => some card_data
      | none =>
        match enResult with
        | some en_card => some en_card
        | none => some card_data
    else
      some card_data

/-- Upstream outcome of one attempt inside `_make_request`: an HTTP response
with a status code and (for 200) a parsed body, a `requests` timeout, a
connection error, or any other `RequestException` (which includes an
unparseable 200 body in modern `requests`). -/
inductive Attempt (α : Type) where
  | response (status : Nat) (body : α)
  | timeoutErr
  | connectionErr
  | otherReqErr
deriving DecidableEq

/-- Embeds the `for attempt in range(max_retries)` loop of
`ScryfallService._make_request` (src/scryfall_service.py:33-62).
`att i` is the outcome of attempt `i`; the second component of the result
records the argument of each `time.sleep` call issued before a retry, in
order.  Structure: status 200 returns the body, 404 and any other status
return `None`, 429 sleeps 1 second and consumes an attempt, a network or
timeout error sleeps `2^attempt` seconds unless the attempt budget is
exhausted, any other request error returns `None`; falling off the loop
returns `None`. -/
def requestLoop {α : Type} (att : Nat → Attempt α) (max_retries : Nat) :
    Nat → Nat → Option α × List Nat
  | _, 0 => (none, [])
  | attempt, r + 1 =>
    match att attempt with
    | .response status body =>
      if status = 200 then (some body, [])
      else if status = 404 then (none, [])
      else if status = 429 then
        let rest := requestLoop att max_retries (attempt + 1) r
        (rest.1, 1 :: rest.2)
      else (none, [])
    | .timeoutErr =>
      if attempt < max_retries - 1 then
        let rest := requestLoop att max_retries (attempt + 1) r
        (rest.1, 2 ^ attempt :: rest.2)
      else (none, [])
    | .connectionErr =>
      if attempt < max_retries - 1 then
        let rest := requestLoop att max_retries (attempt + 1) r
        (rest.1, 2 ^ attempt :: rest.2)
      else (none, [])
    | .otherReqErr => (none, [])

/-- Embeds `ScryfallService._make_request` (src/scryfall_service.py:29-62)
with its default `max_retries=3`; returns the resolved value (or absence)
together with the trace of sleeps. -/
def _make_request {α : Type} (att : Nat → Attempt α) (max_retries : Nat := 3) :
    Option α × List Nat :=
  requestLoop att max_retries 0 max_retries

/-- One entry of the `editions` list built by `get_card_editions`
(src/scryfall_service.py:247-262): every key the source puts in the dict,
including the `has_portuguese` flag added after the main loop. -/
structure Edition where
  name : String
  set : String
  set_name : String
  released_at : String
  image_uris : List (String × String)
  id : String
  rarity : String
  lang : String
  lang_name : String
  has_portuguese : Bool
deriving DecidableEq

/-- Embeds the two merge loops of `get_card_editions`
(src/scryfall_service.py:199-203 and 228-232): `existing_ids` is the set of
ids already collected, computed once **before** the loop, so two entries of
`newCards` that share an id are both appended. -/
def mergeNew (all_cards newCards : List Card) : List Card :=
  let existing_ids := all_cards.map (fun c => c.id)
  all_cards ++ newCards.filter (fun c => decide (c.id ∉ existing_ids))

/-- Embeds the local `sort_key` of `get_card_editions`
(src/scryfall_service.py:265-267). -/
def sort_key (x : Edition) : Nat × String :=
  (if x.lang = "pt" then 0 else 1, x.released_at)

/-- Strict lexicographic order on sort keys, Python's `<` on
`(int, str)` tuples. -/
def keyLt (a b : Nat × String) : Bool :=
  decide (a.1 < b.1) || (decide (a.1 = b.1) && charListLt a.2.data b.2.data)

/-- One step of a stable descending insertion sort by `sort_key`. -/
def insertEd (x : Edition) : List Edition → List Edition
  | [] => [x]
  | y :: ys => if keyLt (sort_key x) (sort_key y) then y :: insertEd x ys else x :: y :: ys

/-- Embeds `editions.sort(key=sort_key, reverse=True)`
(src/scryfall_service.py:269).  Python's `list.sort` is stable; with
`reverse=True` it orders by key descending, equal keys keeping their list
order — which is exactly what this stable insertion sort produces. -/
def sortEditions : List Edition → List Edition
  | [] => []
  | x :: xs => insertEd x (sortEditions xs)

/-- The `edition_info` dict built for one card
(src/scryfall_service.py:238-258), with the `has_portuguese` flag of
lines 260-262 filled in from the set codes that have a Portuguese
printing. -/
def cardToEdition (sets_with_portuguese : List String) (card : Card) : Edition :=
  let lang := card.lang.getD "en"
  let set_code := pyUpper (card.set.getD "")
  { name := pyOrStr card.printed_name (card.name.getD "")
    set := set_code
    set_name := card.set_name.getD ""
    released_at := card.released_at.getD ""
    image_uris := card.image_uris.getD []
    id := card.id.getD ""
    rarity := card.rarity.getD ""
    lang := lang
    lang_name := _get_language_name lang
    has_portuguese := decide (set_code ∈ sets_with_portuguese) }

/-- Embeds `ScryfallService.get_card_editions`
(src/scryfall_service.py:166-276).  The three searches are abstracted by
their results: `response` for the quoted exact-phrase query, `alt_response`
for the unquoted one, `oracle_response` for the `oracle_id:` query (issued
only when the first collected card has a truthy `oracle_id`).  `some data`
models a response carrying a `data` array; `none` models a failed response
or one without `data`. -/
def get_card_editions (response alt_response oracle_response : Option (List Card))
    (limit : Nat := 200) : List Edition :=
  let all₁ := match response with | some data => data | none => []
  let all₂ := match alt_response with | some data => mergeNew all₁ data | none => all₁
  if all₂.isEmpty then []
  else
    let card_oracle_id := all₂.head?.bind (fun c => c.oracle_id)
    let all₃ :=
      if pyTruthyStr card_oracle_id then
        match oracle_response with
        | some data => mergeNew all₂ data
        | none => all₂
      else all₂
    let taken := all₃.take limit
    let sets_with_portuguese :=
      (taken.filter (fun c => decide (c.lang.getD "en" = "pt"))).map
        (fun c => pyUpper (c.set.getD ""))
    sortEditions (taken.map (cardToEdition sets_with_portuguese))

/-- Sort key of `get_unique_languages` (src/scryfall_service.py:335):
`(0 if code == 'pt' else 1, display_name)`. -/
def langKey (p : String × String) : Nat × String :=
  (if p.1 = "pt" then 0 else 1, p.2)

/-- One step of a stable ascending insertion sort by `langKey`. -/
def insertLang (x : String × String) :
    List (String × String) → List (String × String)
  | [] => [x]
  | y :: ys => if keyLt (langKey y) (langKey x) then y :: insertLang x ys else x :: y :: ys

/-- Ascending stable sort by `langKey`, Python's `sorted(..., key=...)`. -/
def sortLangs : List (String × String) → List (String × String)
  | [] => []
  | x :: xs => insertLang x (sortLangs xs)

/-- Embeds `ScryfallService.get_unique_languages`
(src/scryfall_service.py:326-336).  The Python `set` of `(code, name)`
pairs is modelled as first-occurrence dedup; since `_get_language_name` is
injective, no two distinct pairs share a sort key, so `sorted` yields the
same list whatever iteration order the set uses. -/
def get_unique_languages (editions : List Edition) : List (String × String) :=
  sortLangs (dedupFirst (editions.map (fun e => (e.lang, _get_language_name e.lang))))

/-! ## `src/card_parser.py` -/

/-- Python's `.` regex atom: any character except a newline. -/
def isDotPy (c : Char) : Bool := decide (c ≠ '\n')

/-- The part of pattern 1 after the name group:
`\s+\(([A-Za-z0-9]+)\)(?:\s+\d+)?\s*$` without its captures beyond the set
code.  The whitespace before `(` and the alphanumeric run cannot usefully
backtrack (shrinking them puts a non-matching character under a literal),
so greedy maximal runs are exact. -/
def pat1TailOK (t : List Char) : Bool :=
  t.all isSpacePy ||
    (let w := t.takeWhile isSpacePy
     let r := t.dropWhile isSpacePy
     !w.isEmpty && !(r.takeWhile Char.isDigit).isEmpty &&
       (r.dropWhile Char.isDigit).all isSpacePy)

/-- Matches `\s+\(([A-Za-z0-9]+)\)(?:\s+\d+)?\s*$` against `r`, returning
the captured set code. -/
def pat1AfterName (r : List Char) : Option String :=
  let gap2 := r.takeWhile isSpacePy
  let r3 := r.dropWhile isSpacePy
  if gap2.isEmpty then none
  else
    match r3 with
    | '(' :: r4 =>
      let code := r4.takeWhile Char.isAlphanum
      let r5 := r4.dropWhile Char.isAlphanum
      if code.isEmpty then none
      else
        match r5 with
        | ')' :: tail => if pat1TailOK tail then some (String.mk code) else none
        | _ => none
    | _ => none

/-- Python regex `^\s*(\d+)\s+(.+?)\s+\(([A-Za-z0-9]+)\)(?:\s+\d+)?\s*$`
(src/card_parser.py:13) with its backtracking order: the whitespace run
after the quantity is greedy (longest split tried first) and the name group
is lazy (shortest name tried first).  Returns `(int(quantity), name,
set_code)` for the first successful split, as `re.match` captures them. -/
def pat1 (s : List Char) : Option (Nat × String × String) :=
  let s1 := s.dropWhile isSpacePy
  let digits := s1.takeWhile Char.isDigit
  let rest := s1.dropWhile Char.isDigit
  if digits.isEmpty then none
  else
    let wsMax := (rest.takeWhile isSpacePy).length
    (List.range wsMax).findSome? (fun i =>
      let r1 := rest.drop (wsMax - i)
      (List.range r1.length).findSome? (fun j =>
        let name := r1.take (j + 1)
        if name.all isDotPy then
          (pat1AfterName (r1.drop (j + 1))).map
            (fun code => (digitsToNat digits, String.mk name, code))
        else none))

/-- Python regex `^\s*(\d+)\s+(.+?)\s*$` (src/card_parser.py:15), same
backtracking order as `pat1`. -/
def pat2 (s : List Char) : Option (Nat × String) :=
  let s1 := s.dropWhile isSpacePy
  let digits := s1.takeWhile Char.isDigit
  let rest := s1.dropWhile Char.isDigit
  if digits.isEmpty then none
  else
    let wsMax := (rest.takeWhile isSpacePy).length
    (List.range wsMax).findSome? (fun i =>
      let r1 := rest.drop (wsMax - i)
      (List.range r1.length).findSome? (fun j =>
        let name := r1.take (j + 1)
        if name.all isDotPy && (r1.drop (j + 1)).all isSpacePy then
          some (digitsToNat digits, String.mk name)
        else none))

/-- Python regex `^\s*([^\d].+?)\s*$` (src/card_parser.py:17): the group is
a non-digit character (a negated class, so a newline would match) followed
by at least one `.` character, lazily extended. -/
def pat3 (s : List Char) : Option String :=
  let wsMax := (s.takeWhile isSpacePy).length
  (List.range (wsMax + 1)).findSome? (fun i =>
    let r := s.drop (wsMax - i)
    match r with
    | c :: _ =>
      if c.isDigit then none
      else
        (List.range (r.length - 1)).findSome? (fun j =>
          let m := j + 2
          if ((r.take m).drop 1).all isDotPy && (r.drop m).all isSpacePy then
            some (String.mk (r.take m))
          else none)
    | [] => none)

/-- A parsed card dict as built by `CardParser._parse_line`
(src/card_parser.py:51-93); `line_number` is stamped on afterwards by
`parse_card_list` (line 39), so it defaults to `0` until then. -/
structure ParsedCard where
  quantity : Nat
  name : String
  set_code : Option String
  original_line : String
  line_number : Nat := 0
deriving DecidableEq

/-- Embeds `CardParser._parse_line` (src/card_parser.py:51-93): the three
patterns are tried in order, first match wins; the name group is stripped
and the set code uppercased; a bare-name line gets quantity 1. -/
def _parse_line (line : String) : Option ParsedCard :=
  match pat1 line.data with
  | some (q, name, code) =>
    some { quantity := q, name := pyStrip name, set_code := some (pyUpper code),
           original_line := line }
  | none =>
    match pat2 line.data with
    | some (q, name) =>
      some { quantity := q, name := pyStrip name, set_code := none, original_line := line }
    | none =>
      match pat3 line.data with
      | some name =>
        some { quantity := 1, name := pyStrip name, set_code := none, original_line := line }
      | none => none

/-- A value of the `card_map` built by `CardParser._consolidate_cards`
(src/card_parser.py:95-114): a parsed card that may additionally have
grown an `original_lines` key (only when at least two requests merged). -/
structure ConsolidatedCard where
  quantity : Nat
  name : String
  set_code : Option String
  original_line : String
  line_number : Nat
  original_lines : Option (List String)
deriving DecidableEq

/-- The identity key of src/card_parser.py:101:
`(card['name'].lower(), (card.get('set_code') or '').upper())`. -/
def cardKey (c : ParsedCard) : String × String :=
  (pyLower c.name, pyUpper (c.set_code.getD ""))

/-- The identity key recomputed from a map entry's own fields; merging
keeps the first card's fields, whose key equals the map key. -/
def consKey (e : ConsolidatedCard) : String × String :=
  (pyLower e.name, pyUpper (e.set_code.getD ""))

/-- The merge branch of src/card_parser.py:103-109: add the quantity and
append the incoming card's original line text, creating `original_lines`
from the entry's own `original_line` on the first merge. -/
def mergeCons (e : ConsolidatedCard) (c : ParsedCard) : ConsolidatedCard :=
  { e with quantity := e.quantity + c.quantity,
           original_lines := some ((e.original_lines.getD [e.original_line]) ++ [c.original_line]) }

/-- The new-entry branch of src/card_parser.py:110-112: `card.copy()`. -/
def newCons (c : ParsedCard) : ConsolidatedCard :=
  { quantity := c.quantity, name := c.name, set_code := c.set_code,
    original_line := c.original_line, line_number := c.line_number,
    original_lines := none }

/-- In-place update of the (unique) existing entry with the given key, as
`card_map[key]` mutation does; `none` when no entry has the key. -/
def updateFirst (k : String × String) (c : ParsedCard) :
    List ConsolidatedCard → Option (List ConsolidatedCard)
  | [] => none
  | e :: es =>
    if consKey e = k then some (mergeCons e c :: es)
    else (updateFirst k c es).map (fun l => e :: l)

/-- One iteration of the consolidation loop (src/card_parser.py:99-112). -/
def addCard (acc : List ConsolidatedCard) (c : ParsedCard) : List ConsolidatedCard :=
  match updateFirst (cardKey c) c acc with
  | some l => l
  | none => acc ++ [newCons c]

/-- Embeds `CardParser._consolidate_cards` (src/card_parser.py:95-114);
`list(card_map.values())` preserves dict insertion order. -/
def _consolidate_cards (parsed : List ParsedCard) : List ConsolidatedCard :=
  parsed.foldl addCard []

/-- Embeds `CardParser.parse_card_list` (src/card_parser.py:20-49):
strip the text, split on newlines, number lines from 1, skip blank and
`#`/`//` comment lines, parse the rest, drop unparsable lines, and
consolidate. -/
def parse_card_list (card_list_text : String) : List ConsolidatedCard :=
  let lines := splitNL (pyStrip card_list_text).data
  let parsed := lines.enum.filterMap (fun p =>
    let line := pyStrip (String.mk p.2)
    if line = "" || startsWithChars line.data "#".data || startsWithChars line.data "//".data
    then none
    else (_parse_line line).map (fun c => { c with line_number := p.1 + 1 }))
  _consolidate_cards parsed

/-! ## `src/app.py` -/

/-- After the default-edition selection (src/app.py:88-104) the local
`card_data` holds either the resolver's card record or one of the
aggregator's edition dicts; the two have different keys, so the record
construction at lines 111-123 reads them differently. -/
inductive CardOrEdition where
  | fromCard (c : Card)
  | fromEdition (e : Edition)
deriving DecidableEq

/-- `card_data.get('printed_name') or card_data.get('name', '')`
(src/app.py:112); an edition dict has no `printed_name` key. -/
def coeName : CardOrEdition → String
  | .fromCard c => pyOrStr c.printed_name (c.name.getD "")
  | .fromEdition e => e.name

/-- `card_data.get('image_uris', {}).get('large') or
card_data.get('image_uris', {}).get('normal', '')` (src/app.py:114). -/
def coeImageUrl : CardOrEdition → String
  | .fromCard c =>
    pyOrStr (dictGet (c.image_uris.getD []) "large")
      ((dictGet (c.image_uris.getD []) "normal").getD "")
  | .fromEdition e =>
    pyOrStr (dictGet e.image_uris "large") ((dictGet e.image_uris "normal").getD "")

/-- `card_data.get('id', '')` (src/app.py:115). -/
def coeId : CardOrEdition → String
  | .fromCard c => c.id.getD ""
  | .fromEdition e => e.id

/-- `(card_data.get('set') or '').upper()` (src/app.py:116). -/
def coeSet : CardOrEdition → String
  | .fromCard c => pyUpper (c.set.getD "")
  | .fromEdition e => pyUpper e.set

/-- `card_data.get('set_name', '')` (src/app.py:117). -/
def coeSetName : CardOrEdition → String
  | .fromCard c => c.set_name.getD ""
  | .fromEdition e => e.set_name

/-- `card_data.get('lang', 'en')` (src/app.py:118). -/
def coeLang : CardOrEdition → String
  | .fromCard c => c.lang.getD "en"
  | .fromEdition e => e.lang

/-- Embeds the default-edition selection of `process_list`
(src/app.py:83-104): keep a Portuguese resolver hit; else try the edition
matching the requested set code; else if no set was requested, use the
first edition when it is Portuguese; otherwise keep the resolver hit. -/
def chooseCardData (card_info : ConsolidatedCard) (card_data : Card)
    (editions : List Edition) : CardOrEdition :=
  let default_edition := (pyStrOpt card_info.set_code).map pyUpper
  if card_data.lang = some "pt" then CardOrEdition.fromCard card_data
  else
    match default_edition, editions with
    | some de, _ :: _ =>
      match editions.find? (fun ed => decide (pyUpper ed.set = de)) with
      | some default_card => CardOrEdition.fromEdition default_card
      | none => CardOrEdition.fromCard card_data
    | _, first_edition :: _ =>
      if first_edition.lang = "pt" then CardOrEdition.fromEdition first_edition
      else CardOrEdition.fromCard card_data
    | _, [] => CardOrEdition.fromCard card_data

/-- Per-card outcome of the resolution steps inside the `process_list`
loop: `ok` carries the truthy `card_data` from `get_card_by_name`
(src/app.py:65) together with the editions list (already `[]` when the
editions fetch failed, src/app.py:75-79); `notFoundR` models a falsy
`card_data` (including the inner `except` at line 67 setting it to
`None`); `raisedR` models an exception escaping the per-card body, caught
by the `except` at src/app.py:145. -/
inductive ResOutcome where
  | ok (card_data : Card) (editions : List Edition)
  | notFoundR
  | raisedR
deriving DecidableEq

/-- One record of the `processed_cards` list (src/app.py:111-157).
Success records (lines 111-123) carry `lang`, `lang_name` and `languages`
keys; the two error placeholders (lines 133-143 and 147-157) do not, hence
the `Option` fields, and they carry an `error` key that success records
lack. -/
structure ProcessedCard where
  name : String
  quantity : Nat
  image_url : String
  scryfall_id : String
  set_code : String
  set_name : String
  lang : Option String
  lang_name : Option String
  editions : List Edition
  languages : Option (List (String × String))
  original_name : String
  error : Option String
deriving DecidableEq

/-- The body of one iteration of the `for card_info in parsed_cards` loop
of `process_list` (src/app.py:58-157), with the upstream interactions
abstracted by `resolve`. -/
def processOne (resolve : ConsolidatedCard → ResOutcome)
    (card_info : ConsolidatedCard) : ProcessedCard :=
  match resolve card_info with
  | .ok card_data editions =>
    let chosen := chooseCardData card_info card_data editions
    { name := coeName chosen
      quantity := card_info.quantity
      image_url := coeImageUrl chosen
      scryfall_id := coeId chosen
      set_code := coeSet chosen
      set_name := coeSetName chosen
      lang := some (coeLang chosen)
      lang_name := some (_get_language_name (coeLang chosen))
      editions := editions
      languages := some (if editions.isEmpty then [] else get_unique_languages editions)
      original_name := card_info.name
      error := none }
  | .notFoundR =>
    { name := card_info.name
      quantity := card_info.quantity
      image_url := ""
      scryfall_id := ""
      set_code := card_info.set_code.getD ""
      set_name := ""
      lang := none
      lang_name := none
      editions := []
      languages := none
      original_name := card_info.name
      error := some "Card not found" }
  | .raisedR =>
    { name := card_info.name
      quantity := card_info.quantity
      image_url := ""
      scryfall_id := ""
      set_code := card_info.set_code.getD ""
      set_name := ""
      lang := none
      lang_name := none
      editions := []
      languages := none
      original_name := card_info.name
      error := some "Network error - please try again" }

/-- Embeds the per-card loop of the `process_list` route
(src/app.py:56-157): one appended record per consolidated request, in
request order. -/
def process_list (cards : List ConsolidatedCard)
    (resolve : ConsolidatedCard → ResOutcome) : List ProcessedCard :=
  cards.map (processOne resolve)

/-- Embeds the filter loop of `get_card_by_lang_and_set`
(src/app.py:230-255): keep editions matching the truthy constraints, and
pair each kept edition with its `is_portuguese_available` flag, computed
against the **unfiltered** editions list. -/
def filter_editions (editions : List Edition) (set_code lang_code : Option String) :
    List (Edition × Bool) :=
  editions.filterMap (fun edition =>
    let edition_set := pyUpper edition.set
    let include1 : Bool :=
      match pyStrOpt set_code with
      | some sc => decide (edition_set = pyUpper sc)
      | none => true
    let include2 : Bool :=
      match pyStrOpt lang_code with
      | some lc => decide (edition.lang = lc)
      | none => true
    if include1 && include2 then
      some (edition,
        editions.any (fun ed => decide (pyUpper ed.set = edition_set) && decide (ed.lang = "pt")))
    else none)

/-- The JSON object built from the first filtered edition
(src/app.py:266-275). -/
structure SelectedCard where
  name : String
  image_url : String
  scryfall_id : String
  set_code : String
  set_name : String
  lang : String
  lang_name : String
  is_portuguese_available : Bool
deriving DecidableEq

/-- Embeds the selection at src/app.py:264-276: the first element of the
filtered sequence, or no selection when it is empty. -/
def selected_card : List (Edition × Bool) → Option SelectedCard
  | [] => none
  | (e, pa) :: _ =>
    some { name := e.name
           image_url := pyOrStr (dictGet e.image_uris "large")
             ((dictGet e.image_uris "normal").getD "")
           scryfall_id := e.id
           set_code := pyUpper e.set
           set_name := e.set_name
           lang := e.lang
           lang_name := _get_language_name e.lang
           is_portuguese_available := pa }

/-! ## Definitions supporting the statements -/

/-- The sort invariant as the spec words it (spec.md §8): for adjacent
pairs `(a, b)`, either `a` is a preferred-language printing and `b` is
not, or both have equal preferred-status and `a.release_date ≥
b.release_date`. -/
def specSortInvariant : List Edition → Bool
  | [] => true
  | [_] => true
  | a :: b :: rest =>
    ((decide (a.lang = "pt") && decide (b.lang ≠ "pt")) ||
      ((decide (a.lang = "pt") = decide (b.lang = "pt")) &&
        !charListLt a.released_at.data b.released_at.data)) &&
    specSortInvariant (b :: rest)

/-- An English printing from 2020, for evaluating the aggregator's sort. -/
def sortCardEn : Card :=
  { id := some "e1", lang := some "en", set := some "abc",
    released_at := some "2020-01-01" }

/-- A Portuguese printing from 2024 of the same set. -/
def sortCardPt : Card :=
  { id := some "p1", lang := some "pt", set := some "abc",
    released_at := some "2024-01-01" }

/-- A card whose id repeats inside a single upstream response. -/
def dupIdCard : Card := { id := some "x", lang := some "en", set := some "aaa" }

/-- First-occurrence deduplication, the sequence of keys in order of first
appearance (dict key insertion order). -/
def firstDedup : List (String × String) → List (String × String) :=
  List.foldl (fun ks k => if k ∈ ks then ks else ks ++ [k]) []

/-- Total quantity carried by the parsed requests with identity key `k`. -/
def sumQuant (k : String × String) (l : List ParsedCard) : Nat :=
  (l.map (fun c => if cardKey c = k then c.quantity else 0)).sum

/-- Total quantity carried by the consolidated entries with identity key `k`. -/
def sumQuantCons (k : String × String) (l : List ConsolidatedCard) : Nat :=
  (l.map (fun e => if consKey e = k then e.quantity else 0)).sum

/-- The ordered original-line texts a consolidated entry accounts for: its
`original_lines` list when present, else just its own `original_line`. -/
def originLines (e : ConsolidatedCard) : List String :=
  match e.original_lines with
  | some l => l
  | none => [e.original_line]

/-- A concrete two-request list for exercising `process_list`. -/
def c5Cards : List ConsolidatedCard :=
  [{ quantity := 2, name := "Forest", set_code := none,
     original_line := "2 Forest", line_number := 1, original_lines := none },
   { quantity := 1, name := "Counterspell", set_code := some "7ED",
     original_line := "1 Counterspell (7ED)", line_number := 2,
     original_lines := none }]

/-- A concrete resolution environment: "Forest" resolves, everything else
comes back falsy. -/
def c5Resolve : ConsolidatedCard → ResOutcome :=
  fun c => if c.name = "Forest" then ResOutcome.ok { id := some "f" } []
           else ResOutcome.notFoundR

/-- The placeholder record `process_list` emits for the failed
"Counterspell" request. -/
def c5Placeholder : ProcessedCard :=
  { name := "Counterspell", quantity := 1, image_url := "", scryfall_id := "",
    set_code := "7ED", set_name := "", lang := none, lang_name := none,
    editions := [], languages := none, original_name := "Counterspell",
    error := some "Card not found" }

/-- The ids in one upstream response's `data` are truthy and pairwise
distinct. -/
def goodIds (l : List Card) : Prop :=
  (∀ c ∈ l, pyTruthyStr c.id = true) ∧ (l.map (fun c => c.id)).Nodup

instance (l : List Card) : Decidable (goodIds l) := by
  unfold goodIds
  infer_instance

/-- `goodIds` lifted to an optional response. -/
def goodIdsOpt : Option (List Card) → Prop
  | some l => goodIds l
  | none => True

instance (o : Option (List Card)) : Decidable (goodIdsOpt o) := by
  cases o <;> simp [goodIdsOpt] <;> infer_instance

/-- The `all_cards` list after collecting the main response
(src/scryfall_service.py:192-196). -/
def respCards : Option (List Card) → List Card
  | some data => data
  | none => []

/-- The `all_cards` list after also merging the alternative response
(src/scryfall_service.py:198-203). -/
def mergedCards (response alt_response : Option (List Card)) : List Card :=
  match alt_response with
  | some data => mergeNew (respCards response) data
  | none => respCards response

/-- The tail of `get_card_editions` after the final `all_cards` list is
fixed (src/scryfall_service.py:236-272): truncate, record the sets with a
Portuguese printing, build the edition dicts and sort them. -/
def aggFinish (all₃ : List Card) (limit : Nat) : List Edition :=
  sortEditions ((all₃.take limit).map (cardToEdition
    (((all₃.take limit).filter (fun c => decide (c.lang.getD "en" = "pt"))).map
      (fun c => pyUpper (c.set.getD "")))))

/-- The tail of `get_card_editions` after the first two responses are
collected into `all₂` (src/scryfall_service.py:205-272). -/
def aggAfterMerge (all₂ : List Card) (oracle_response : Option (List Card))
    (limit : Nat) : List Edition :=
  if all₂.isEmpty then []
  else
    aggFinish
      (if pyTruthyStr (all₂.head?.bind (fun c => c.oracle_id)) then
        (match oracle_response with
         | some data => mergeNew all₂ data
         | none => all₂)
       else all₂) limit

/-! ## Theorems -/

/-- C1: the spec says preferred-language (Portuguese) printings sort before
all others, and the code's own comment at src/scryfall_service.py:264 says
"Portuguese first"; but `sort(key=(0 if pt else 1, date), reverse=True)`
orders the key tuple descending, so priority 1 (non-Portuguese) sorts
before priority 0 (Portuguese).  At a concrete pair of printings the
aggregate comes out English-first — even though the Portuguese printing is
the more recent — and the spec's adjacent-pair sort invariant evaluates to
false. -/
theorem C1_sort_puts_preferred_language_last :
    (get_card_editions (some [sortCardEn, sortCardPt]) none none).map
        (fun e => (e.lang, e.released_at)) =
      [("en", "2020-01-01"), ("pt", "2024-01-01")] ∧
    specSortInvariant (get_card_editions (some [sortCardEn, sortCardPt]) none none) =
      false := by
  constructor
  · decide
  · decide

/-- C2: when the fuzzy candidate has a truthy id and the
preferred-language (`lang=pt`) lookup answers with a record whose language
is not `pt`, the resolver does not return that record: it returns the
default-language lookup's result when that is truthy, and otherwise the
original fuzzy candidate. -/
theorem C2_resolver_language_fallback (card pt_card : Card) (enResult : Option Card)
    (hid : pyTruthyStr card.id = true) (hlang : pt_card.lang ≠ some "pt") :
    get_card_by_name (some card) (some pt_card) enResult =
      match enResult with
      | some en_card => some en_card
      | none => some card := by
  simp only [get_card_by_name, hid, if_true, if_neg hlang]

/-- Witness for C2 at a concrete input: fuzzy candidate with id "abc", a
`lang=en` answer to the preferred-language lookup, and no default-language
answer; the resolver returns the fuzzy candidate. -/
theorem C2_witness :
    get_card_by_name (some { id := some "abc" }) (some { lang := some "en" }) none =
      some { id := some "abc" } := by
  exact C2_resolver_language_fallback { id := some "abc" } { lang := some "en" } none
    (by decide) (by decide)

/-- C3: the retry client is a total function into value-or-absence (it
cannot raise), and on the claim's scenarios with the default budget of 3
attempts: a 200 yields the parsed body at once; a 404 yields absence with
no retry and no sleep; any other non-429 status yields absence immediately;
a 429 sleeps 1 second and consumes one attempt (three 429s exhaust the
budget and yield absence after sleeps `[1, 1, 1]`; a 429 followed by a 200
yields the body after one sleep); a network/timeout error backs off
`2^attempt` seconds and retries, and three of them yield absence after
sleeps `[2^0, 2^1]` (no sleep after the final attempt). -/
theorem C3_retry_client (att : Nat → Attempt Nat) :
    (∀ b, att 0 = Attempt.response 200 b → _make_request att = (some b, [])) ∧
    (∀ b, att 0 = Attempt.response 404 b → _make_request att = (none, [])) ∧
    (∀ s b, att 0 = Attempt.response s b → s ≠ 200 → s ≠ 404 → s ≠ 429 →
      _make_request att = (none, [])) ∧
    ((∀ i, i < 3 → ∃ b, att i = Attempt.response 429 b) →
      _make_request att = (none, [1, 1, 1])) ∧
    (∀ b b', att 0 = Attempt.response 429 b → att 1 = Attempt.response 200 b' →
      _make_request att = (some b', [1])) ∧
    ((∀ i, i < 3 → att i = Attempt.timeoutErr ∨ att i = Attempt.connectionErr) →
      _make_request att = (none, [1, 2])) := by
  refine ⟨?_, ?_, ?_, ?_, ?_, ?_⟩
  · intro b h
    simp [_make_request, requestLoop, h]
  · intro b h
    simp [_make_request, requestLoop, h]
  · intro s b h h200 h404 h429
    simp [_make_request, requestLoop, h, h200, h404, h429]
  · intro h
    obtain ⟨b0, h0⟩ := h 0 (by omega)
    obtain ⟨b1, h1⟩ := h 1 (by omega)
    obtain ⟨b2, h2⟩ := h 2 (by omega)
    simp [_make_request, requestLoop, h0, h1, h2]
  · intro b b' h0 h1
    simp [_make_request, requestLoop, h0, h1]
  · intro h
    have h0 := h 0 (by omega)
    have h1 := h 1 (by omega)
    have h2 := h 2 (by omega)
    rcases h0 with h0 | h0 <;> rcases h1 with h1 | h1 <;> rcases h2 with h2 | h2 <;>
      simp [_make_request, requestLoop, h0, h1, h2]

/-- Witness for C3 at a concrete input: every attempt times out; the
client resolves to absence after backoff sleeps of 1 and 2 seconds. -/
theorem C3_witness :
    _make_request (fun _ => Attempt.timeoutErr (α := Nat)) = (none, [1, 2]) := by
  exact (C3_retry_client (fun _ => Attempt.timeoutErr)).2.2.2.2.2
    (fun i _ => Or.inl rfl)

/-- C8: the parser violates the data-model invariant it is supposed to
maintain.  `(\d+)` accepts a zero quantity: the accepted line
`"0 Sol Ring"` produces a request with `quantity = 0 < 1`, through
`parse_card_list` as well.  And on `"4   (ABC)"` pattern 1 backtracks the
whitespace after the quantity, captures a whitespace-only name group, and
`strip()` leaves an empty name. -/
theorem C8_invariant_not_enforced :
    (_parse_line "0 Sol Ring").map (fun c => (c.quantity, c.name)) =
      some (0, "Sol Ring") ∧
    (parse_card_list "0 Sol Ring").map (fun c => c.quantity) = [0] ∧
    (_parse_line "4   (ABC)").map (fun c => (c.quantity, c.name, c.set_code)) =
      some (4, "", some "ABC") := by
  refine ⟨by decide, by decide, by decide⟩

/-- C10: when the fuzzy candidate carries no `id` field, the resolver
returns it unchanged; in this embedding the absence of the two id-based
lookups shows as the result not depending on `ptResult` and `enResult` at
all. -/
theorem C10_fuzzy_without_id_returned_unchanged (card : Card)
    (ptResult enResult : Option Card) (hid : card.id = none) :
    get_card_by_name (some card) ptResult enResult = some card := by
  simp [get_card_by_name, pyTruthyStr, hid]

/-- Witness for C10 at a concrete input: an id-less fuzzy candidate is
returned as-is even though both id-based lookups would have answered. -/
theorem C10_witness :
    get_card_by_name (some { name := some "Forest" })
      (some { lang := some "pt" }) (some { lang := some "en" }) =
      some { name := some "Forest" } := by
  exact C10_fuzzy_without_id_returned_unchanged { name := some "Forest" }
    (some { lang := some "pt" }) (some { lang := some "en" }) rfl

/-- C5: the pipeline emits exactly one output record per consolidated
request, in request order; the `i`-th record carries the `i`-th request's
name and quantity, a resolution failure yields a record tagged with the
corresponding error string instead of being dropped (so no failure aborts
the records of the remaining requests), and a successful resolution yields
an untagged record. -/
theorem C5_one_record_per_request (cards : List ConsolidatedCard)
    (resolve : ConsolidatedCard → ResOutcome) :
    (process_list cards resolve).length = cards.length ∧
    ∀ i : Nat,
      ((process_list cards resolve)[i]?).map (fun r => r.original_name) =
        (cards[i]?).map (fun c => c.name) ∧
      ((process_list cards resolve)[i]?).map (fun r => r.quantity) =
        (cards[i]?).map (fun c => c.quantity) ∧
      ∀ c r, cards[i]? = some c → (process_list cards resolve)[i]? = some r →
        (resolve c = ResOutcome.notFoundR → r.error = some "Card not found") ∧
        (resolve c = ResOutcome.raisedR →
          r.error = some "Network error - please try again") ∧
        (∀ card_data editions, resolve c = ResOutcome.ok card_data editions →
          r.error = none) := by
  refine ⟨by simp [process_list], ?_⟩
  intro i
  refine ⟨?_, ?_, ?_⟩
  · cases hc : cards[i]? with
    | none => simp [process_list, List.getElem?_map, hc]
    | some c =>
      cases hr : resolve c <;>
        simp [process_list, List.getElem?_map, hc, processOne, hr]
  · cases hc : cards[i]? with
    | none => simp [process_list, List.getElem?_map, hc]
    | some c =>
      cases hr : resolve c <;>
        simp [process_list, List.getElem?_map, hc, processOne, hr]
  · intro c r hc hr
    rw [process_list, List.getElem?_map, hc] at hr
    simp at hr
    subst hr
    refine ⟨?_, ?_, ?_⟩
    · intro hres
      simp [processOne, hres]
    · intro hres
      simp [processOne, hres]
    · intro card_data editions hres
      simp [processOne, hres]

/-- Witness for C5 at a concrete input: two requests, the first resolving
and the second failing; two records come out, and the second is the
"Card not found" placeholder. -/
theorem C5_witness :
    (process_list c5Cards c5Resolve).length = 2 ∧
    c5Placeholder.error = some "Card not found" := by
  constructor
  · exact (C5_one_record_per_request c5Cards c5Resolve).1
  · exact (((C5_one_record_per_request c5Cards c5Resolve).2 1).2.2
      { quantity := 1, name := "Counterspell", set_code := some "7ED",
        original_line := "1 Counterspell (7ED)", line_number := 2,
        original_lines := none }
      c5Placeholder (by decide) (by decide)).1 (by decide)

/-- The retention predicate of the filter loop (src/app.py:239-245): an
edition is kept iff it matches every truthy constraint. -/
def keepEd (sc lc : Option String) (edition : Edition) : Bool :=
  (match pyStrOpt sc with
   | some s => decide (pyUpper edition.set = pyUpper s)
   | none => true) &&
  (match pyStrOpt lc with
   | some l => decide (edition.lang = l)
   | none => true)

/-- The `is_portuguese_available` flag (src/app.py:250-253), computed
against the unfiltered editions list. -/
def ptAvail (editions : List Edition) (edition : Edition) : Bool :=
  editions.any (fun ed =>
    decide (pyUpper ed.set = pyUpper edition.set) && decide (ed.lang = "pt"))

theorem filter_editions_eq_filterMap (eds : List Edition) (sc lc : Option String) :
    filter_editions eds sc lc =
      eds.filterMap (fun e => if keepEd sc lc e then some (e, ptAvail eds e) else none) := rfl

theorem filterMap_keep_fst (eds l : List Edition) (sc lc : Option String) :
    (l.filterMap (fun e => if keepEd sc lc e then some (e, ptAvail eds e) else none)).map
        (fun p => p.1) =
      l.filter (keepEd sc lc) := by
  induction l with
  | nil => rfl
  | cons e es ih =>
    by_cases h : keepEd sc lc e <;>
      simp [List.filterMap_cons, List.filter_cons, h, ih]

theorem filter_editions_fst (eds : List Edition) (sc lc : Option String) :
    (filter_editions eds sc lc).map (fun p => p.1) = eds.filter (keepEd sc lc) := by
  rw [filter_editions_eq_filterMap, filterMap_keep_fst]

/-- C6: the edition filter retains exactly the printings matching every
given constraint.  With a non-empty `set_code` constraint and no language
constraint: when some edition carries that set code (compared
case-insensitively, as the code uppercases both sides) the result is
non-empty and every retained printing carries it; when none does, the
result is empty and no selected card is produced.  With no constraints
every printing is retained, and with both constraints the result is
exactly the sublist matching both. -/
theorem C6_edition_filter (editions : List Edition) (sc : String) (hsc : sc ≠ "") :
    ((∃ ed ∈ editions, pyUpper ed.set = pyUpper sc) →
      filter_editions editions (some sc) none ≠ [] ∧
      ∀ p ∈ filter_editions editions (some sc) none, pyUpper p.1.set = pyUpper sc) ∧
    ((∀ ed ∈ editions, pyUpper ed.set ≠ pyUpper sc) →
      filter_editions editions (some sc) none = [] ∧
      selected_card (filter_editions editions (some sc) none) = none) ∧
    ((filter_editions editions none none).map (fun p => p.1) = editions) ∧
    (∀ lc, lc ≠ "" →
      (filter_editions editions (some sc) (some lc)).map (fun p => p.1) =
        editions.filter (fun ed =>
          decide (pyUpper ed.set = pyUpper sc) && decide (ed.lang = lc))) := by
  have hkeep : keepEd (some sc) none = fun ed => decide (pyUpper ed.set = pyUpper sc) := by
    funext ed
    simp [keepEd, pyStrOpt, hsc]
  refine ⟨?_, ?_, ?_, ?_⟩
  · rintro ⟨ed, hed, hset⟩
    constructor
    · intro hnil
      have h0 := filter_editions_fst editions (some sc) none
      rw [hnil, hkeep] at h0
      have := (List.filter_eq_nil_iff.mp h0.symm) ed hed
      simp [hset] at this
    · intro p hp
      have h1 : p.1 ∈ (filter_editions editions (some sc) none).map (fun q => q.1) :=
        List.mem_map_of_mem _ hp
      rw [filter_editions_fst, hkeep] at h1
      simpa using (List.of_mem_filter h1)
  · intro hall
    have h0 := filter_editions_fst editions (some sc) none
    rw [hkeep] at h0
    have h1 : editions.filter (fun ed => decide (pyUpper ed.set = pyUpper sc)) = [] := by
      rw [List.filter_eq_nil_iff]
      intro ed hed
      simpa using hall ed hed
    rw [h1] at h0
    have h2 : filter_editions editions (some sc) none = [] := by
      exact List.map_eq_nil_iff.mp h0
    exact ⟨h2, by rw [h2]; rfl⟩
  · rw [filter_editions_fst]
    have : keepEd none none = fun _ => true := by
      funext ed
      simp [keepEd, pyStrOpt]
    rw [this, List.filter_true]
  · intro lc hlc
    rw [filter_editions_fst]
    congr 1
    funext ed
    simp [keepEd, pyStrOpt, hsc, hlc]

/-- Witness for C6 at a concrete input: two editions from sets CMM and
2X2; filtering by set code "cmm" keeps exactly the CMM printing. -/
theorem C6_witness :
    filter_editions
        [{ name := "Sol Ring", set := "CMM", set_name := "Commander Masters",
           released_at := "2023-08-04", image_uris := [], id := "i1",
           rarity := "uncommon", lang := "en", lang_name := "Inglês",
           has_portuguese := false },
         { name := "Sol Ring", set := "2X2", set_name := "Double Masters 2022",
           released_at := "2022-07-08", image_uris := [], id := "i2",
           rarity := "uncommon", lang := "en", lang_name := "Inglês",
           has_portuguese := false }] (some "cmm") none ≠ [] ∧
    ∀ p ∈ filter_editions
        [{ name := "Sol Ring", set := "CMM", set_name := "Commander Masters",
           released_at := "2023-08-04", image_uris := [], id := "i1",
           rarity := "uncommon", lang := "en", lang_name := "Inglês",
           has_portuguese := false },
         { name := "Sol Ring", set := "2X2", set_name := "Double Masters 2022",
           released_at := "2022-07-08", image_uris := [], id := "i2",
           rarity := "uncommon", lang := "en", lang_name := "Inglês",
           has_portuguese := false }] (some "cmm") none,
      pyUpper p.1.set = pyUpper "cmm" := by
  exact (C6_edition_filter _ "cmm" (by decide)).1 (by decide)

theorem insertEd_perm (x : Edition) (l : List Edition) :
    List.Perm (insertEd x l) (x :: l) := by
  induction l with
  | nil => exact List.Perm.refl _
  | cons y ys ih =>
    by_cases h : keyLt (sort_key x) (sort_key y)
    · rw [insertEd, if_pos h]
      exact (ih.cons y).trans (List.Perm.swap x y ys)
    · rw [insertEd, if_neg h]

theorem sortEditions_perm (l : List Edition) : List.Perm (sortEditions l) l := by
  induction l with
  | nil => exact List.Perm.refl _
  | cons x xs ih => exact (insertEd_perm x (sortEditions xs)).trans (ih.cons x)

theorem mem_mergeNew (a b : List Card) (c : Card) (h : c ∈ mergeNew a b) :
    c ∈ a ∨ c ∈ b := by
  rw [mergeNew, List.mem_append] at h
  rcases h with h | h
  · exact Or.inl h
  · exact Or.inr (List.mem_of_mem_filter h)

theorem mergeNew_ids_nodup (a b : List Card)
    (ha : (a.map (fun c => c.id)).Nodup) (hb : (b.map (fun c => c.id)).Nodup) :
    ((mergeNew a b).map (fun c => c.id)).Nodup := by
  rw [mergeNew, List.map_append, List.nodup_append]
  refine ⟨ha, ?_, ?_⟩
  · exact hb.sublist ((List.filter_sublist b).map _)
  · intro x hx hx'
    rw [List.mem_map] at hx'
    obtain ⟨c, hc, hcx⟩ := hx'
    have := List.of_mem_filter hc
    rw [decide_eq_true_iff] at this
    exact this (hcx ▸ hx)

theorem goodIds_mergeNew (a b : List Card) (ha : goodIds a) (hb : goodIds b) :
    goodIds (mergeNew a b) := by
  refine ⟨?_, mergeNew_ids_nodup a b ha.2 hb.2⟩
  intro c hc
  rcases mem_mergeNew a b c hc with h | h
  · exact ha.1 c h
  · exact hb.1 c h

theorem goodIds_mergedCards (response alt_response : Option (List Card))
    (h1 : goodIdsOpt response) (h2 : goodIdsOpt alt_response) :
    goodIds (mergedCards response alt_response) := by
  have hresp : goodIds (respCards response) := by
    cases response with
    | none =>
      constructor
      · intro c hc
        simp [respCards] at hc
      · simp [respCards]
    | some l => exact h1
  cases alt_response with
  | none => exact hresp
  | some l => exact goodIds_mergeNew _ l hresp h2

/-- The id stored in an edition record is the card's id defaulted to the
empty string. -/
theorem cardToEdition_id (S : List String) (c : Card) :
    (cardToEdition S c).id = c.id.getD "" := rfl

theorem editionsPipeline_ids_nodup (X : List Card) (S : List String) (limit : Nat)
    (hX : goodIds X) :
    ((sortEditions ((X.take limit).map (cardToEdition S))).map (fun e => e.id)).Nodup := by
  have hperm : List.Perm
      ((sortEditions ((X.take limit).map (cardToEdition S))).map (fun e => e.id))
      (((X.take limit).map (cardToEdition S)).map (fun e => e.id)) :=
    (sortEditions_perm _).map _
  rw [hperm.nodup_iff, List.map_map]
  have heq : ((fun e => e.id) ∘ cardToEdition S) =
      (fun o => o.getD "") ∘ (fun c : Card => c.id) := rfl
  rw [heq, ← List.map_map]
  have htknodup : ((X.take limit).map (fun c => c.id)).Nodup := by
    have hsub : List.Sublist ((X.take limit).map (fun c => c.id))
        (X.map (fun c => c.id)) :=
      (List.take_sublist limit X).map _
    exact hX.2.sublist hsub
  refine htknodup.map_on ?_
  intro x hx y hy hxy
  rw [List.mem_map] at hx hy
  obtain ⟨cx, hcx, hcxe⟩ := hx
  obtain ⟨cy, hcy, hcye⟩ := hy
  have gx := hX.1 cx (List.mem_of_mem_take hcx)
  have gy := hX.1 cy (List.mem_of_mem_take hcy)
  rw [hcxe] at gx
  rw [hcye] at gy
  match x, y with
  | none, _ => simp [pyTruthyStr] at gx
  | some sx, none => simp [pyTruthyStr] at gy
  | some sx, some sy => simp at hxy; rw [hxy]

theorem aggAfterMerge_ids_nodup (all₂ : List Card) (oracle_response : Option (List Card))
    (limit : Nat) (h2 : goodIds all₂) (h3 : goodIdsOpt oracle_response) :
    ((aggAfterMerge all₂ oracle_response limit).map (fun e => e.id)).Nodup := by
  unfold aggAfterMerge aggFinish
  by_cases hemp : all₂.isEmpty
  · simp [hemp]
  · rw [if_neg hemp]
    by_cases horc : pyTruthyStr (all₂.head?.bind (fun c => c.oracle_id))
    · rw [if_pos horc]
      cases oracle_response with
      | none => exact editionsPipeline_ids_nodup _ _ _ h2
      | some data =>
        exact editionsPipeline_ids_nodup _ _ _ (goodIds_mergeNew _ _ h2 h3)
    · rw [if_neg horc]
      exact editionsPipeline_ids_nodup _ _ _ h2

theorem get_card_editions_decompose (response alt_response oracle_response : Option (List Card))
    (limit : Nat) :
    get_card_editions response alt_response oracle_response limit =
      aggAfterMerge (mergedCards response alt_response) oracle_response limit := by
  cases response <;> cases alt_response <;> rfl

/-- C4 counterexample: the claim fails as stated.  The merge loops compute
`existing_ids` once before iterating, so a single upstream response whose
`data` repeats an id puts both copies in the aggregate: with an empty main
response and an alternative response listing the same card twice, the
output repeats catalog id "x". -/
theorem C4_counterexample :
    (get_card_editions (some []) (some [dupIdCard, dupIdCard]) none).map (fun e => e.id) =
      ["x", "x"] ∧
    ¬ ((get_card_editions (some []) (some [dupIdCard, dupIdCard]) none).map
        (fun e => e.id)).Nodup := by
  constructor
  · decide
  · decide

/-- C4 amended: for every card name and combination of upstream responses
in which each response's `data` carries truthy, pairwise-distinct ids, the
printing sequence returned by `get_card_editions` contains no two entries
with the same catalog id (cross-response duplicates are still merged
away). -/
theorem C4_dedup_across_responses (response alt_response oracle_response : Option (List Card))
    (limit : Nat) (h1 : goodIdsOpt response) (h2 : goodIdsOpt alt_response)
    (h3 : goodIdsOpt oracle_response) :
    ((get_card_editions response alt_response oracle_response limit).map
        (fun e => e.id)).Nodup := by
  rw [get_card_editions_decompose]
  exact aggAfterMerge_ids_nodup _ _ _ (goodIds_mergedCards _ _ h1 h2) h3

/-- Witness for C4 at a concrete input: the English card comes back from
both the exact and the loose search, together with the Portuguese
printing; the aggregate keeps each id once. -/
theorem C4_witness :
    ((get_card_editions (some [sortCardEn]) (some [sortCardEn, sortCardPt]) none 200).map
        (fun e => e.id)).Nodup := by
  exact C4_dedup_across_responses (some [sortCardEn]) (some [sortCardEn, sortCardPt])
    none 200 (by decide) (by decide) (by decide)

theorem consKey_newCons (c : ParsedCard) : consKey (newCons c) = cardKey c := rfl

theorem consKey_mergeCons (e : ConsolidatedCard) (c : ParsedCard) :
    consKey (mergeCons e c) = consKey e := rfl

theorem mergeCons_quantity (e : ConsolidatedCard) (c : ParsedCard) :
    (mergeCons e c).quantity = e.quantity + c.quantity := rfl

theorem newCons_quantity (c : ParsedCard) : (newCons c).quantity = c.quantity := rfl

theorem updateFirst_eq_none_iff (k : String × String) (c : ParsedCard)
    (acc : List ConsolidatedCard) :
    updateFirst k c acc = none ↔ ∀ e ∈ acc, consKey e ≠ k := by
  induction acc with
  | nil => simp [updateFirst]
  | cons e es ih =>
    by_cases h : consKey e = k
    · simp [updateFirst, h]
    · simp [updateFirst, h, ih, Option.map_eq_none']

theorem updateFirst_eq_some (k : String × String) (c : ParsedCard)
    (acc l : List ConsolidatedCard) (h : updateFirst k c acc = some l) :
    ∃ pre e₀ post, acc = pre ++ e₀ :: post ∧ consKey e₀ = k ∧
      (∀ x ∈ pre, consKey x ≠ k) ∧ l = pre ++ mergeCons e₀ c :: post := by
  induction acc generalizing l with
  | nil => simp [updateFirst] at h
  | cons e es ih =>
    by_cases he : consKey e = k
    · rw [updateFirst, if_pos he] at h
      refine ⟨[], e, es, rfl, he, by simp, ?_⟩
      simpa using (Option.some.inj h).symm
    · rw [updateFirst, if_neg he] at h
      cases hu : updateFirst k c es with
      | none => rw [hu] at h; simp at h
      | some l' =>
        rw [hu] at h
        simp only [Option.map_some'] at h
        obtain ⟨pre, e₀, post, hacc, hk, hpre, hl'⟩ := ih l' hu
        refine ⟨e :: pre, e₀, post, by simp [hacc], hk, ?_, ?_⟩
        · intro x hx
          rcases List.mem_cons.mp hx with hx | hx
          · rw [hx]; exact he
          · exact hpre x hx
        · rw [← Option.some.inj h, hl']
          rfl

theorem map_consKey_updateFirst (k : String × String) (c : ParsedCard)
    (acc l : List ConsolidatedCard) (h : updateFirst k c acc = some l) :
    l.map consKey = acc.map consKey := by
  obtain ⟨pre, e₀, post, hacc, hk, hpre, hl⟩ := updateFirst_eq_some k c acc l h
  subst hacc
  subst hl
  simp [consKey_mergeCons]

theorem map_consKey_addCard (acc : List ConsolidatedCard) (c : ParsedCard) :
    (addCard acc c).map consKey =
      if cardKey c ∈ acc.map consKey then acc.map consKey
      else acc.map consKey ++ [cardKey c] := by
  unfold addCard
  cases hu : updateFirst (cardKey c) c acc with
  | some l =>
    have hmem : cardKey c ∈ acc.map consKey := by
      by_contra hmem
      have hnone : updateFirst (cardKey c) c acc = none := by
        rw [updateFirst_eq_none_iff]
        intro e he heq
        exact hmem (heq ▸ List.mem_map_of_mem consKey he)
      rw [hnone] at hu
      cases hu
    rw [if_pos hmem]
    exact map_consKey_updateFirst _ _ _ _ hu
  | none =>
    have hall : ∀ e ∈ acc, consKey e ≠ cardKey c := (updateFirst_eq_none_iff _ _ _).mp hu
    have hmem : cardKey c ∉ acc.map consKey := by
      intro hc
      obtain ⟨e, he, heq⟩ := List.mem_map.mp hc
      exact hall e he heq
    rw [if_neg hmem]
    simp [consKey_newCons]

theorem foldl_addCard_keys (parsed : List ParsedCard) (acc : List ConsolidatedCard) :
    (parsed.foldl addCard acc).map consKey =
      (parsed.map cardKey).foldl
        (fun ks k => if k ∈ ks then ks else ks ++ [k]) (acc.map consKey) := by
  induction parsed generalizing acc with
  | nil => rfl
  | cons c cs ih =>
    simp only [List.foldl_cons, List.map_cons]
    rw [ih, map_consKey_addCard]

theorem consolidate_keys (parsed : List ParsedCard) :
    (_consolidate_cards parsed).map consKey = firstDedup (parsed.map cardKey) :=
  foldl_addCard_keys parsed []

theorem foldl_dedup_nodup (l : List (String × String)) :
    ∀ ks : List (String × String), ks.Nodup →
      (l.foldl (fun ks k => if k ∈ ks then ks else ks ++ [k]) ks).Nodup := by
  induction l with
  | nil => intro ks h; exact h
  | cons k rest ih =>
    intro ks h
    simp only [List.foldl_cons]
    by_cases hk : k ∈ ks
    · rw [if_pos hk]
      exact ih ks h
    · rw [if_neg hk]
      refine ih _ ?_
      simp [List.nodup_append, h, hk]

theorem foldl_dedup_mem (l : List (String × String)) :
    ∀ (ks : List (String × String)) (x : String × String),
      x ∈ l.foldl (fun ks k => if k ∈ ks then ks else ks ++ [k]) ks ↔ x ∈ ks ∨ x ∈ l := by
  induction l with
  | nil => simp
  | cons k rest ih =>
    intro ks x
    simp only [List.foldl_cons]
    by_cases hk : k ∈ ks
    · rw [if_pos hk, ih]
      rw [List.mem_cons]
      constructor
      · rintro (h | h)
        · exact Or.inl h
        · exact Or.inr (Or.inr h)
      · rintro (h | h | h)
        · exact Or.inl h
        · exact Or.inl (h ▸ hk)
        · exact Or.inr h
    · rw [if_neg hk, ih]
      simp only [List.mem_append, List.mem_cons, List.not_mem_nil, or_false]
      tauto

theorem consolidate_keys_nodup (parsed : List ParsedCard) :
    ((_consolidate_cards parsed).map consKey).Nodup := by
  rw [consolidate_keys]
  exact foldl_dedup_nodup _ [] (by simp)

theorem consolidate_keys_mem (parsed : List ParsedCard) (k : String × String) :
    k ∈ (_consolidate_cards parsed).map consKey ↔ k ∈ parsed.map cardKey := by
  rw [consolidate_keys]
  unfold firstDedup
  rw [foldl_dedup_mem]
  simp

theorem sumQuantCons_updateFirst (k' k : String × String) (c : ParsedCard)
    (acc l : List ConsolidatedCard) (h : updateFirst k c acc = some l) :
    sumQuantCons k' l = sumQuantCons k' acc + (if k = k' then c.quantity else 0) := by
  obtain ⟨pre, e₀, post, hacc, hk, hpre, hl⟩ := updateFirst_eq_some k c acc l h
  subst hacc
  subst hl
  simp only [sumQuantCons, List.map_append, List.map_cons, List.sum_append,
    List.sum_cons, consKey_mergeCons, hk, mergeCons_quantity]
  by_cases hkk : k = k'
  · simp [hkk]
    omega
  · simp [hkk]

theorem sumQuantCons_addCard (acc : List ConsolidatedCard) (c : ParsedCard)
    (k' : String × String) :
    sumQuantCons k' (addCard acc c) =
      sumQuantCons k' acc + (if cardKey c = k' then c.quantity else 0) := by
  unfold addCard
  cases hu : updateFirst (cardKey c) c acc with
  | some l => exact sumQuantCons_updateFirst k' (cardKey c) c acc l hu
  | none =>
    simp [sumQuantCons, List.map_append, consKey_newCons, newCons_quantity]

theorem foldl_addCard_sum (parsed : List ParsedCard) (acc : List ConsolidatedCard)
    (k' : String × String) :
    sumQuantCons k' (parsed.foldl addCard acc) =
      sumQuantCons k' acc + sumQuant k' parsed := by
  induction parsed generalizing acc with
  | nil => simp [sumQuant]
  | cons c cs ih =>
    simp only [List.foldl_cons]
    rw [ih, sumQuantCons_addCard]
    have : sumQuant k' (c :: cs) =
        (if cardKey c = k' then c.quantity else 0) + sumQuant k' cs := by
      simp [sumQuant]
    rw [this]
    omega

/-- C7: consolidation groups by the identity key (lowercased name,
uppercased set-code-or-empty), sums quantities per key, and emits one
entry per key in order of first appearance.  Concretely,
`"2 Sol Ring (CMM)"` and `"1 Sol Ring (CMM)"` become one request with
quantity 3, while `"1 Sol Ring (CMM)"` and `"1 Sol Ring (2X2)"` stay
distinct; in general, the consolidated keys are exactly the first-seen
deduplication of the parsed keys and the per-key quantity totals are
preserved. -/
theorem C7_consolidation :
    ((parse_card_list "2 Sol Ring (CMM)\n1 Sol Ring (CMM)").map
        (fun e => (e.quantity, e.name, e.set_code)) =
      [(3, "Sol Ring", some "CMM")]) ∧
    ((parse_card_list "1 Sol Ring (CMM)\n1 Sol Ring (2X2)").map
        (fun e => (e.quantity, e.name, e.set_code)) =
      [(1, "Sol Ring", some "CMM"), (1, "Sol Ring", some "2X2")]) ∧
    (∀ parsed : List ParsedCard,
      (_consolidate_cards parsed).map consKey = firstDedup (parsed.map cardKey)) ∧
    (∀ (parsed : List ParsedCard) (k : String × String),
      sumQuantCons k (_consolidate_cards parsed) = sumQuant k parsed) := by
  refine ⟨by decide, by decide, consolidate_keys, ?_⟩
  intro parsed k
  have h := foldl_addCard_sum parsed [] k
  simpa [sumQuantCons] using h

theorem originLines_newCons (c : ParsedCard) :
    originLines (newCons c) = [c.original_line] := rfl

theorem originLines_mergeCons (e : ConsolidatedCard) (c : ParsedCard) :
    originLines (mergeCons e c) = originLines e ++ [c.original_line] := by
  cases h : e.original_lines <;> simp [originLines, mergeCons, h]

theorem mergeCons_original_lines_isSome (e : ConsolidatedCard) (c : ParsedCard) :
    (mergeCons e c).original_lines ≠ none := by
  simp [mergeCons]

theorem filter_snoc_ne (cs : List ParsedCard) (c : ParsedCard) (k : String × String)
    (hne : cardKey c ≠ k) :
    (cs ++ [c]).filter (fun x => decide (cardKey x = k)) =
      cs.filter (fun x => decide (cardKey x = k)) := by
  rw [List.filter_append]
  simp [hne]

theorem filter_snoc_eq (cs : List ParsedCard) (c : ParsedCard) (k : String × String)
    (heq : cardKey c = k) :
    (cs ++ [c]).filter (fun x => decide (cardKey x = k)) =
      cs.filter (fun x => decide (cardKey x = k)) ++ [c] := by
  rw [List.filter_append]
  simp [heq]

/-- The per-entry record of origin-line texts maintained by consolidation:
an entry accounts for exactly the original line texts of the parsed
requests sharing its key, in order, and carries an `original_lines` list
exactly when at least two requests merged into it. -/
theorem consolidate_origin_lines (parsed : List ParsedCard) :
    ∀ e ∈ _consolidate_cards parsed,
      originLines e =
        (parsed.filter (fun x => decide (cardKey x = consKey e))).map
          (fun x => x.original_line) ∧
      (e.original_lines = none ↔
        (parsed.filter (fun x => decide (cardKey x = consKey e))).length = 1) := by
  induction parsed using List.reverseRecOn with
  | nil =>
    intro e he
    simp [_consolidate_cards] at he
  | append_singleton cs c ih =>
    have hsnoc : _consolidate_cards (cs ++ [c]) = addCard (_consolidate_cards cs) c := by
      simp [_consolidate_cards, List.foldl_append]
    rw [hsnoc]
    intro e he
    unfold addCard at he
    cases hu : updateFirst (cardKey c) c (_consolidate_cards cs) with
    | none =>
      rw [hu] at he
      have hnotin : ∀ e' ∈ _consolidate_cards cs, consKey e' ≠ cardKey c :=
        (updateFirst_eq_none_iff _ _ _).mp hu
      have hKnotcs : cardKey c ∉ cs.map cardKey := by
        intro hKcs
        obtain ⟨e', he', hk'⟩ :=
          List.mem_map.mp ((consolidate_keys_mem cs (cardKey c)).mpr hKcs)
        exact hnotin e' he' hk'
      rcases List.mem_append.mp he with he | he
      · have hne : cardKey c ≠ consKey e := fun h => hnotin e he h.symm
        rw [filter_snoc_ne cs c _ hne]
        exact ih e he
      · have he' : e = newCons c := by simpa using he
        subst he'
        rw [consKey_newCons]
        have h1 : cs.filter (fun x => decide (cardKey x = cardKey c)) = [] := by
          rw [List.filter_eq_nil_iff]
          intro x hx
          simp only [decide_eq_true_eq]
          intro hxc
          exact hKnotcs (hxc ▸ List.mem_map_of_mem cardKey hx)
        rw [filter_snoc_eq cs c _ rfl, h1]
        constructor
        · rfl
        · simp [newCons]
    | some l =>
      rw [hu] at he
      obtain ⟨pre, e₀, post, hacc, hk₀, hpre, hl⟩ := updateFirst_eq_some _ c _ l hu
      have hnodup := consolidate_keys_nodup cs
      rw [hacc] at hnodup
      have hpost : ∀ x ∈ post, consKey x ≠ cardKey c := by
        rw [List.map_append, List.map_cons, hk₀] at hnodup
        have h2 := (List.nodup_append.mp hnodup).2.1
        have h3 := (List.nodup_cons.mp h2).1
        intro x hx heq
        exact h3 (heq ▸ List.mem_map_of_mem consKey hx)
      subst hl
      rcases List.mem_append.mp he with he | he
      · have hne : cardKey c ≠ consKey e := fun h => hpre e he h.symm
        have hecs : e ∈ _consolidate_cards cs := by
          rw [hacc]
          exact List.mem_append_left _ he
        rw [filter_snoc_ne cs c _ hne]
        exact ih e hecs
      · rcases List.mem_cons.mp he with he | he
        · subst he
          rw [consKey_mergeCons, hk₀]
          have he₀cs : e₀ ∈ _consolidate_cards cs := by
            rw [hacc]
            exact List.mem_append_right _ (List.mem_cons_self e₀ post)
          obtain ⟨ih1, ih2⟩ := ih e₀ he₀cs
          rw [hk₀] at ih1 ih2
          have hKmem : cardKey c ∈ cs.map cardKey := by
            rw [← consolidate_keys_mem]
            exact hk₀ ▸ List.mem_map_of_mem consKey he₀cs
          have hfilne : cs.filter (fun x => decide (cardKey x = cardKey c)) ≠ [] := by
            obtain ⟨x, hx, hxk⟩ := List.mem_map.mp hKmem
            intro hnil
            have := List.filter_eq_nil_iff.mp hnil x hx
            simp [hxk] at this
          rw [filter_snoc_eq cs c _ rfl]
          constructor
          · rw [originLines_mergeCons, List.map_append, ih1]
            rfl
          · constructor
            · intro habs
              exact absurd habs (mergeCons_original_lines_isSome e₀ c)
            · intro hlen
              rw [List.length_append] at hlen
              have hpos : 0 < (cs.filter (fun x => decide (cardKey x = cardKey c))).length :=
                List.length_pos.mpr hfilne
              simp only [List.length_singleton] at hlen
              omega
        · have hne : cardKey c ≠ consKey e := fun h => hpost e he h.symm
          have hecs : e ∈ _consolidate_cards cs := by
            rw [hacc]
            exact List.mem_append_right _ (List.mem_cons_of_mem e₀ he)
          rw [filter_snoc_ne cs c _ hne]
          exact ih e hecs

/-- C9 counterexample: the claim fails as stated.  A consolidated request
produced from a single line carries no origin-line sequence at all
(`original_lines` is absent), and when lines do merge, what is retained is
the ordered original line *texts*, while the merged-in lines' numbers are
dropped (the entry keeps only the first request's `line_number`). -/
theorem C9_counterexample :
    ((parse_card_list "1 Foo").map (fun e => e.original_lines) = [none]) ∧
    ((parse_card_list "2 Sol Ring (CMM)\n1 sol ring (CMM)").map
        (fun e => (e.original_lines, e.line_number)) =
      [(some ["2 Sol Ring (CMM)", "1 sol ring (CMM)"], 1)]) := by
  constructor
  · decide
  · decide

/-- C9 amended: each consolidated request accounts for exactly the ordered
original line texts of the parsed requests merged into it — through
`original_lines` when at least two requests share its key, and through its
own `original_line` alone when it is the only one (in which case no
`original_lines` sequence exists). -/
theorem C9_origin_line_texts (parsed : List ParsedCard) (e : ConsolidatedCard)
    (he : e ∈ _consolidate_cards parsed) :
    originLines e =
      (parsed.filter (fun x => decide (cardKey x = consKey e))).map
        (fun x => x.original_line) ∧
    (e.original_lines = none ↔
      (parsed.filter (fun x => decide (cardKey x = consKey e))).length = 1) :=
  consolidate_origin_lines parsed e he

/-- Witness for C9 at a concrete input: consolidating
`"2 Sol Ring (CMM)"` and `"1 Sol Ring (CMM)"` yields one entry whose
origin texts are both lines in order, and whose `original_lines` is
present because two requests merged. -/
theorem C9_witness :
    originLines
        { quantity := 3, name := "Sol Ring", set_code := some "CMM",
          original_line := "2 Sol Ring (CMM)", line_number := 1,
          original_lines := some ["2 Sol Ring (CMM)", "1 Sol Ring (CMM)"] } =
      ["2 Sol Ring (CMM)", "1 Sol Ring (CMM)"] := by
  have h := C9_origin_line_texts
    [{ quantity := 2, name := "Sol Ring", set_code := some "CMM",
       original_line := "2 Sol Ring (CMM)", line_number := 1 },
     { quantity := 1, name := "Sol Ring", set_code := some "CMM",
       original_line := "1 Sol Ring (CMM)", line_number := 2 }]
    { quantity := 3, name := "Sol Ring", set_code := some "CMM",
      original_line := "2 Sol Ring (CMM)", line_number := 1,
      original_lines := some ["2 Sol Ring (CMM)", "1 Sol Ring (CMM)"] }
    (by decide)
  rw [h.1]
  decide
